import Mathlib

set_option linter.dupNamespace false

/-
  Verification development for the kaleodoscope repository.

  Part 1 embeds the type/kind data model of src/src/core/type.hpp
  (namespace mangekyou).  Many member functions there are declared but have
  no body in the repository excerpt (Type::apply, Type::tv, the kind()
  members, KArr::is_equal, the substitution type tc::Subst, and the whole
  unifier); those are modelled from spec.md and marked as such.

  Part 2 embeds src/syntax/parser.cpp (namespace Parser).  The companion
  headers parser.hpp / ast.hpp / name.hpp are absent from the excerpt, so
  the token-code constants, the Token / Parser members and the AST node
  shapes are modelled from the spec and from how parser.cpp uses them.
-/

namespace mangekyou

/-- Modelled from the spec: `name::Id` comes from the absent header
`name.hpp`; the spec only requires a globally unique identifier, modelled
as a natural number. -/
abbrev Id := Nat

/-- Kinds (`struct Kind : std::variant<KStar, KArr>` in type.hpp).
`star` embeds the `KStar` alternative and `arr` the `KArr` alternative
(with its two `Rc<Kind>` components inlined, sharing being irrelevant for
immutable values). -/
inductive Kind where
  | star : Kind
  | arr : Kind → Kind → Kind
deriving DecidableEq

/-- Structural kind equality.  Modelled from the spec: `KStar::is_equal`
(always `true`) is defined in type.hpp, but the bodies of `KArr::is_equal`
and of `Kind::operator==` are only declared there; the `Arrow` case
(compare both sides recursively) and the cross-variant case (`false`)
follow the spec's words. -/
def Kind.is_equal : Kind → Kind → Bool
  | Kind.star, Kind.star => true
  | Kind.arr l1 r1, Kind.arr l2 r2 => Kind.is_equal l1 l2 && Kind.is_equal r1 r2
  | _, _ => false

/-- Types (`struct Type : std::variant<TyVar, TyCon, TyApp, TyGen>`).
`var`/`con` carry the `Id` and stored `Kind` of `TyVar`/`TyCon`; `app`
inlines the two `Rc<Type>` components of `TyApp`; `gen` carries the `i32`
index of `TyGen` as an `Int`. -/
inductive Ty where
  | var : Id → Kind → Ty
  | con : Id → Kind → Ty
  | app : Ty → Ty → Ty
  | gen : Int → Ty
deriving DecidableEq

/-- Modelled from the spec: `tc::Subst` is only forward-declared in
type.hpp.  The spec describes an order-irrelevant finite mapping from
type-variable identifier to a type term; modelled as an association list
whose first matching entry wins. -/
abbrev Subst := List (Id × Ty)

/-- First-match lookup in a substitution. -/
def Subst.lookup : Subst → Id → Option Ty
  | [], _ => none
  | (y, t) :: rest, x => if y = x then some t else Subst.lookup rest x

/-- Modelled from the spec: the body of `Type::apply(const tc::Subst&)` is
absent from type.hpp.  Per the spec, every free `Var` whose id is in the
substitution is replaced by its mapped type, `Con` and `Gen` are
unaffected, and `App` recurses into both sides (chaining of bindings is
realised through composition). -/
def Ty.apply (s : Subst) : Ty → Ty
  | Ty.var x k => (Subst.lookup s x).getD (Ty.var x k)
  | Ty.con x k => Ty.con x k
  | Ty.app l r => Ty.app (Ty.apply s l) (Ty.apply s r)
  | Ty.gen i => Ty.gen i

/-- Modelled from the spec: no composition operator appears in type.hpp.
`compose outer inner` maps each variable of `inner`'s domain to
`inner[v].apply(outer)`, then adds every mapping of `outer` whose key is
not already present. -/
def Subst.compose (outer inner : Subst) : Subst :=
  (inner.map (fun p => (p.1, Ty.apply outer p.2))) ++
    (outer.filter (fun p => (Subst.lookup inner p.1).isNone))

/-- Modelled from the spec: the body of `Type::tv()` (retrieve all type
variables, declared in type.hpp) is absent.  Per the spec, `free_vars`
collects every reachable `Var` occurrence (its id and kind, mirroring the
`std::vector<TyVar>` result) in first-occurrence order without
duplicates; `Con` and `Gen` contribute nothing. -/
def Ty.tv : Ty → List (Id × Kind)
  | Ty.var x k => [(x, k)]
  | Ty.con _ _ => []
  | Ty.app l r => Ty.tv l ++ (Ty.tv r).filter (fun v => !((Ty.tv l).contains v))
  | Ty.gen _ => []

/-- Modelled from the spec: the Scheme struct of type.hpp is commented out
(a kind list plus a body; its `Qual<Type>` component is absent from the
excerpt and modelled as a bare type term).  A `Gen i` placeholder's kind
is `kinds[i]`. -/
structure Scheme where
  kinds : List Kind
  ty : Ty
deriving DecidableEq

/-- Modelled from the spec: the bodies of `TyVar::kind`, `TyCon::kind`,
`TyApp::kind`, `TyGen::kind` and of the `Type::kind()` dispatch are
declared in type.hpp but not defined.  `Var`/`Con` return their stored
kind; `App` returns the result-kind component of the left side's `Arrow`
kind; `Gen` reads the kind list of the owning scheme (passed here as the
`ks` context, since a bare `Gen` does not self-describe).  An `App` whose
left side is not arrow-kinded, or a `Gen` index outside the scheme's kind
list, is an internal invariant violation, modelled as `none` (a panic),
as opposed to the recoverable `Except` errors of unification. -/
def Ty.kind (ks : List Kind) : Ty → Option Kind
  | Ty.var _ k => some k
  | Ty.con _ k => some k
  | Ty.app l _ =>
    match Ty.kind ks l with
    | some (Kind.arr _ r) => some r
    | _ => none
  | Ty.gen i => if 0 ≤ i then ks[i.toNat]? else none

/-- Modelled from the spec: the error taxonomy of the unifier (no unifier
body exists in the repository excerpt). -/
inductive UnifyErr where
  | occursCheckError
  | kindMismatchError
  | constructorMismatchError
  | unifyError
deriving DecidableEq

/-- Modelled from the spec: binding a variable `a` (of stored kind `ka`)
to a term `t` during unification.  Fails with `occursCheckError` if `a`
occurs in `t`'s free variables (compared by identifier only); otherwise
fails with `kindMismatchError` if `a`'s kind is not equal to `t`'s kind
(an ill-kinded `t` whose kind is undefined also counts as a mismatch);
otherwise succeeds with the singleton substitution mapping `a` to `t`. -/
def varBind (ks : List Kind) (a : Id) (ka : Kind) (t : Ty) : Except UnifyErr Subst :=
  if (Ty.tv t).any (fun v => v.1 == a) then Except.error UnifyErr.occursCheckError
  else
    match Ty.kind ks t with
    | some kt =>
      if Kind.is_equal ka kt then Except.ok [(a, t)]
      else Except.error UnifyErr.kindMismatchError
    | none => Except.error UnifyErr.kindMismatchError

/-- Modelled from the spec: the unification algorithm (no body exists in
the repository excerpt), cases in the spec's order: equal variables give
the empty substitution; a variable against a term (or symmetrically)
binds through `varBind`; equal constructor ids give the empty
substitution and distinct ones `constructorMismatchError`; applications
unify left sides first, apply the result to both right sides, unify
those, and compose; every other pairing (including any `Gen` reaching the
unifier) is `unifyError`.  The `fuel` argument bounds the recursion depth
of the application case only (the source language's recursion needs no
such bound; every claim proved below holds for every fuel value). -/
def unify : Nat → List Kind → Ty → Ty → Except UnifyErr Subst
  | _, ks, Ty.var a ka, Ty.var b kb =>
    if a = b then Except.ok [] else varBind ks a ka (Ty.var b kb)
  | _, ks, Ty.var a ka, t => varBind ks a ka t
  | _, ks, t, Ty.var a ka => varBind ks a ka t
  | _, _, Ty.con a _, Ty.con b _ =>
    if a = b then Except.ok [] else Except.error UnifyErr.constructorMismatchError
  | fuel + 1, ks, Ty.app l1 r1, Ty.app l2 r2 =>
    match unify fuel ks l1 l2 with
    | Except.error e => Except.error e
    | Except.ok s1 =>
      match unify fuel ks (Ty.apply s1 r1) (Ty.apply s1 r2) with
      | Except.error e => Except.error e
      | Except.ok s2 => Except.ok (Subst.compose s2 s1)
  | 0, _, Ty.app _ _, Ty.app _ _ => Except.error UnifyErr.unifyError
  | _, _, _, _ => Except.error UnifyErr.unifyError

/-- Kind rendering.  The `Kind::to_string` dispatch (if the variant holds
`KStar` use its rendering, else `KArr`'s) is in type.hpp; the two leaf
bodies are declared only.  Modelled from the spec: `Star` renders as `*`
and `Arrow` renders right-associated with parentheses around an arrow
left component. -/
def Kind.to_string : Kind → String
  | Kind.star => "*"
  | Kind.arr l r =>
    (match l with
     | Kind.arr _ _ => "(" ++ Kind.to_string l ++ ")"
     | Kind.star => Kind.to_string l) ++ " -> " ++ Kind.to_string r

/-- Modelled from the spec: the per-variant rendering `KStar::to_string`
(body absent from type.hpp). -/
def KStar.to_string : String := "*"

/-- Modelled from the spec: the per-variant rendering `KArr::to_string`
(body absent from type.hpp). -/
def KArr.to_string (l r : Kind) : String :=
  (match l with
   | Kind.arr _ _ => "(" ++ Kind.to_string l ++ ")"
   | Kind.star => Kind.to_string l) ++ " -> " ++ Kind.to_string r

/-- Type rendering through the per-variant dispatch of the
`FALLTHROUGH_TYPE` macro.  Modelled from the spec: the four per-variant
bodies are declared in type.hpp but not defined; the spec fixes only that
every variant has a rendering, so concrete formats are chosen here. -/
def Ty.to_string : Ty → String
  | Ty.var x _ => "t" ++ toString x
  | Ty.con x _ => "C" ++ toString x
  | Ty.app l r => "(" ++ Ty.to_string l ++ " " ++ Ty.to_string r ++ ")"
  | Ty.gen i => "g" ++ toString i

/-- Modelled from the spec: per-variant rendering `TyVar::to_string`. -/
def TyVar.to_string (x : Id) (_ : Kind) : String := "t" ++ toString x

/-- Modelled from the spec: per-variant rendering `TyCon::to_string`. -/
def TyCon.to_string (x : Id) (_ : Kind) : String := "C" ++ toString x

/-- Modelled from the spec: per-variant rendering `TyApp::to_string`. -/
def TyApp.to_string (l r : Ty) : String :=
  "(" ++ Ty.to_string l ++ " " ++ Ty.to_string r ++ ")"

/-- Modelled from the spec: per-variant rendering `TyGen::to_string`. -/
def TyGen.to_string (i : Int) : String := "g" ++ toString i

/-- The `is<TyVar>()` test of `Type::is`. -/
def Ty.is_tyvar : Ty → Bool
  | Ty.var _ _ => true
  | _ => false

/-- The `is<TyCon>()` test of `Type::is`. -/
def Ty.is_tycon : Ty → Bool
  | Ty.con _ _ => true
  | _ => false

/-- The `is<TyApp>()` test of `Type::is`. -/
def Ty.is_tyapp : Ty → Bool
  | Ty.app _ _ => true
  | _ => false

/-- The `is<TyGen>()` test of `Type::is`. -/
def Ty.is_tygen : Ty → Bool
  | Ty.gen _ => true
  | _ => false

end mangekyou

namespace Parser

namespace AST

/-- Modelled from the spec: ast.hpp is absent from the excerpt.  The
expression tree the parser builds (number literal, variable reference,
binary operation, call); the number payload keeps the source lexeme
(parser.cpp converts it with `strtod`, a floating-point detail no claim
touches). -/
inductive Expr where
  | num : String → Expr
  | var : String → Expr
  | bin : Int → Expr → Expr → Expr
  | call : String → List Expr → Expr

/-- Modelled from the spec: the `VariableExpr` node of the absent
ast.hpp, carrying the identifier's name. -/
structure VariableExpr where
  name : String
deriving DecidableEq

/-- Modelled from the spec: the `Stmt` node of the absent ast.hpp; only
its existence matters to the claims (parser.cpp converts call expressions
into statements). -/
inductive Stmt where
  | expr : Expr → Stmt

end AST

/-
  Token-type constants.  Modelled from the spec: parser.hpp (which holds
  the enum) is absent; parser.cpp relies only on the codes being distinct
  from each other and from ASCII character codes (single-character tokens
  reuse their character code, and `isascii` rejects the named tokens), so
  distinct negative values are chosen, `tok_eof` matching the EOF value
  observed in the comment-at-end-of-file fallthrough.  `tok_ext` is named
  `tok_` followed by `extern` in the source.
-/

def tok_eof : Int := -1

def tok_fn : Int := -2

def tok_ext : Int := -3

def tok_identifier : Int := -4

def tok_number : Int := -5

def tok_op : Int := -6

def tok_let : Int := -7

/-- Modelled from the spec: the `Token` of the absent parser.hpp, as used
by parser.cpp: an `int` type (a `tok_` constant or a character code) and
the lexeme; the source span is dropped, no claim mentions it. -/
structure Token where
  type : Int
  lexeme : String
deriving DecidableEq

/-- The `std::istream` the parser reads, modelled as the remaining bytes:
`peek` looks at the head, `get` consumes it (at end of stream both yield
the EOF value -1 and consume nothing), and `unget` puts the consumed byte
back in front.  The read position of the C++ stream maps to the remaining
suffix. -/
abbrev Stream := List Nat

def Stream.peek : Stream → Int
  | [] => -1
  | c :: _ => (c : Int)

def Stream.get : Stream → Int × Stream
  | [] => (-1, [])
  | c :: rest => ((c : Int), rest)

/-- The `isspace` of the C locale on `peek` results: true exactly for
tab, newline, vertical tab, form feed, carriage return and space (and
false on EOF). -/
def isspace_byte (c : Int) : Bool :=
  c = 9 || c = 10 || c = 11 || c = 12 || c = 13 || c = 32

def isdigit_byte (c : Int) : Bool := 48 ≤ c && c ≤ 57

def isalpha_byte (c : Int) : Bool := (65 ≤ c && c ≤ 90) || (97 ≤ c && c ≤ 122)

def isalnum_byte (c : Int) : Bool := isalpha_byte c || isdigit_byte c

/-- `isascii` on token types: nonnegative and at most 127. -/
def isascii (c : Int) : Bool := 0 ≤ c && c ≤ 127

/-- `is_space` of parser.cpp (handles the UTF-8 non-breaking space): an
ordinary space character answers true consuming nothing; a head byte
other than 0xC2 answers false consuming nothing; on 0xC2 the probe byte
is read, a following 0xA0 answers true leaving the probe consumed, and
anything else is answered false after `unget` restores the probe byte. -/
def is_space (src : Stream) : Bool × Stream :=
  if isspace_byte (Stream.peek src) then (true, src)
  else if Stream.peek src ≠ 194 then (false, src)
  else
    let src1 := (Stream.get src).2
    if Stream.peek src1 = 160 then (true, src1)
    else (false, 194 :: src1)

/-- The space-skipping loop heading `Parser::get_token`
(`while (is_space(src)) getc();`), with an explicit fuel bound on the
iteration count (each true iteration of the source loop consumes at least
one byte, so a fuel of the stream length is always sufficient; the claims
below need only streams whose head is not a space, where no iteration
happens). -/
def skip_spaces_fuel : Nat → Stream → Stream
  | 0, s => s
  | fuel + 1, s =>
    let r := is_space s
    if r.1 then skip_spaces_fuel fuel (Stream.get r.2).2 else s

def skip_spaces (s : Stream) : Stream := skip_spaces_fuel s.length s

/-- The identifier-run loop of `Parser::get_token`
(`while (isalnum(src.peek())) tmp += getc();`). -/
def take_alnum : Stream → List Nat × Stream
  | [] => ([], [])
  | c :: rest =>
    if isalnum_byte (c : Int) then
      let r := take_alnum rest
      (c :: r.1, r.2)
    else ([], c :: rest)

/-- The character class of the number-run loop: a digit or a dot. -/
def digitdot_byte (c : Int) : Bool := isdigit_byte c || c = 46

/-- The number-run loop of `Parser::get_token`
(`while (isdigit(src.peek()) || src.peek() == '.')`). -/
def take_digitdot : Stream → List Nat × Stream
  | [] => ([], [])
  | c :: rest =>
    if digitdot_byte (c : Int) then
      let r := take_digitdot rest
      (c :: r.1, r.2)
    else ([], c :: rest)

/-- The comment-skipping do-while of `Parser::get_token`: reads characters
until EOF, newline or carriage return, returning the last character read
together with the rest of the stream. -/
def skip_comment : Stream → Int × Stream
  | [] => (-1, [])
  | c :: rest =>
    if (c : Int) = 10 || (c : Int) = 13 then ((c : Int), rest)
    else skip_comment rest

/-- Builds the lexeme string from the consumed bytes. -/
def lexemeOf (cs : List Nat) : String := String.mk (cs.map Char.ofNat)

/-- The stream-reading part of `Parser::get_token` (everything after the
buffer check): skip spaces; at end of stream produce `tok_eof`; a letter
starts an alphanumeric run lexed as `fn`, the extern keyword, or an
identifier; a digit or `.` starts a maximal digit-or-dot run returned as
one `tok_number` token; `#` skips a comment to end of line and lexes
again (falling through to the unknown-character case when the comment
runs into EOF); any other character becomes a single-character token
whose type is the character itself.  Span bookkeeping is dropped and the
`char` narrowing of `_ignore` (which makes bytes at or above 128 negative
on signed-char platforms) is not modelled; no claim depends on either.
The fuel bounds the comment-then-lex-again recursion (the source loops on
the finite stream; a fuel of the stream length is always sufficient, and
the claims below never enter the comment branch). -/
def get_token_src_fuel : Nat → Stream → Token × Stream
  | 0, s => ({ type := tok_eof, lexeme := "" }, s)
  | fuel + 1, s0 =>
    let s := skip_spaces s0
    if s.isEmpty then ({ type := tok_eof, lexeme := "" }, s)
    else if isalpha_byte (Stream.peek s) then
      let c := (Stream.get s).1
      let r := take_alnum (Stream.get s).2
      let tmp := lexemeOf (c.toNat :: r.1)
      if tmp = "fn" then ({ type := tok_fn, lexeme := tmp }, r.2)
      else if tmp = "extern" then ({ type := tok_ext, lexeme := tmp }, r.2)
      else ({ type := tok_identifier, lexeme := tmp }, r.2)
    else if digitdot_byte (Stream.peek s) then
      let c := (Stream.get s).1
      let r := take_digitdot (Stream.get s).2
      ({ type := tok_number, lexeme := lexemeOf (c.toNat :: r.1) }, r.2)
    else if Stream.peek s = 35 then
      let r := skip_comment s
      if r.1 ≠ -1 then get_token_src_fuel fuel r.2
      else
        let g := Stream.get r.2
        ({ type := g.1, lexeme := lexemeOf [g.1.toNat] }, g.2)
    else
      let g := Stream.get s
      ({ type := g.1, lexeme := lexemeOf [g.1.toNat] }, g.2)

def get_token_src (s : Stream) : Token × Stream := get_token_src_fuel s.length s

/-- The lexing state of the parser: the pushback buffer `_buffer` (a
deque of tokens used by `peek_token`) and the input stream. -/
structure LexState where
  buffer : List Token
  src : Stream
deriving DecidableEq

/-- `Parser::get_token`: pop the front of the pushback buffer when it is
nonempty, otherwise lex a token from the stream. -/
def get_token (st : LexState) : Token × LexState :=
  match st.buffer with
  | p :: rest => (p, { buffer := rest, src := st.src })
  | [] =>
    let r := get_token_src st.src
    (r.1, { buffer := [], src := r.2 })

/-- The parser state.  Modelled from the spec: parser.hpp (which declares
the members) is absent; parser.cpp's constructor and `get_token_prec`
treat the binary-operator precedence table as configuration state of one
parser instance, which the spec confirms (instance-scoped, not global),
so it is a field here, as are the token buffer, the stream and the
current token (`cur_token`, a null pointer until `next_token` first
runs, modelled as an option).  The filename/span bookkeeping is
dropped. -/
structure Parser where
  buffer : List Token
  src : Stream
  cur_token : Option Token
  binop_prec : List (Int × Int)
deriving DecidableEq

/-- The constructor `Parser::Parser(filename, src)`: empty buffer, null
current token, and the precedence table set to
`'<' 10, '+' 20, '-' 20, '*' 40`. -/
def mkParser (src : Stream) : Parser :=
  { buffer := [], src := src, cur_token := none,
    binop_prec := [(60, 10), (43, 20), (45, 20), (42, 40)] }

/-- The type of the current token (`cur_token->type`).  Dereferencing the
null initial `cur_token` is undefined behaviour in the source; modelled
as `tok_eof`, a choice no claim depends on (every claim's path either
checks the type against a value it then fails on, or runs after
`next_token` has set the token). -/
def Parser.cur_type (p : Parser) : Int :=
  match p.cur_token with
  | some t => t.type
  | none => tok_eof

/-- `Parser::next_token`: fetch a token (buffer first, then stream),
store it as the current token and return its type. -/
def next_token (p : Parser) : Int × Parser :=
  let r := get_token { buffer := p.buffer, src := p.src }
  (r.1.type,
    { p with buffer := r.2.buffer, src := r.2.src, cur_token := some r.1 })

/-- First-match lookup in the precedence map (`std::map<int, int>` keyed
by token type; `std::map` keys are unique, which insertion below
preserves). -/
def map_find : List (Int × Int) → Int → Option Int
  | [], _ => none
  | (k2, v) :: rest, k => if k2 = k then some v else map_find rest k

/-- `std::map::operator[]`: return the mapped value, default-inserting 0
for an absent key (the insertion position in the ordered map is
irrelevant to lookups; appended here). -/
def map_index (m : List (Int × Int)) (k : Int) : Int × List (Int × Int) :=
  match map_find m k with
  | some v => (v, m)
  | none => (0, m ++ [(k, 0)])

/-- `Parser::get_token_prec`: -1 for non-ASCII token types; otherwise
look the type up in this instance's `binop_prec` (the `operator[]` call
default-inserts 0 for unknown keys, mutating only this instance's table)
and answer -1 unless the recorded precedence is positive. -/
def get_token_prec (p : Parser) (tokType : Int) : Int × Parser :=
  if ¬ isascii tokType then (-1, p)
  else
    let r := map_index p.binop_prec tokType
    let p1 := { p with binop_prec := r.2 }
    if r.1 ≤ 0 then (-1, p1) else (r.1, p1)

/-- `Parser::parse_id_expr`: fail unless the current token is an
identifier; otherwise take its lexeme, advance, and build a
`VariableExpr`. -/
def parse_id_expr (p : Parser) : Option AST.VariableExpr × Parser :=
  if p.cur_type ≠ tok_identifier then (none, p)
  else
    let id_name := (Option.map Token.lexeme p.cur_token).getD ""
    let p1 := (next_token p).2
    (some { name := id_name }, p1)

/-- `Parser::parse_assignment` (`'let' id = expr;`): check for `let` and
advance; parse an identifier; require the current token to be `=` (61,
which the source then leaves unconsumed); parse an expression; and return
a null statement on every path, the successful one included.  The
expression grammar `Parser::parse_expr` is mutually recursive with the
rest of the parser and irrelevant to the result here, so it is a
parameter: the theorem below holds for every behaviour of it. -/
def parse_assignment (parse_expr : Parser → Option AST.Expr × Parser)
    (p : Parser) : Option AST.Stmt × Parser :=
  if p.cur_type ≠ tok_let then (none, p)
  else
    match parse_id_expr (next_token p).2 with
    | (none, p2) => (none, p2)
    | (some _, p2) =>
      if p2.cur_type ≠ 61 then (none, p2)
      else
        match parse_expr p2 with
        | (none, p3) => (none, p3)
        | (some _, p3) => (none, p3)

/-- The number-run character class on raw stream bytes (`digitdot_byte`
applied to the byte read as an `int`). -/
def digitdot_nat (b : Nat) : Bool := digitdot_byte (b : Int)

end Parser

namespace mangekyou

theorem lookup_map_apply (s : Subst) (f : Ty → Ty) (x : Id) :
    Subst.lookup (s.map (fun p => (p.1, f p.2))) x = (Subst.lookup s x).map f := by
  induction s with
  | nil => rfl
  | cons p rest ih =>
    obtain ⟨y, t⟩ := p
    by_cases h : y = x <;> simp [Subst.lookup, h, ih]

theorem lookup_append_some (l1 l2 : Subst) (x : Id) (u : Ty)
    (h : Subst.lookup l1 x = some u) :
    Subst.lookup (l1 ++ l2) x = some u := by
  induction l1 with
  | nil => simp [Subst.lookup] at h
  | cons p rest ih =>
    obtain ⟨y, t⟩ := p
    by_cases hy : y = x <;> simp_all [Subst.lookup, hy]

theorem lookup_append_none (l1 l2 : Subst) (x : Id)
    (h : Subst.lookup l1 x = none) :
    Subst.lookup (l1 ++ l2) x = Subst.lookup l2 x := by
  induction l1 with
  | nil => rfl
  | cons p rest ih =>
    obtain ⟨y, t⟩ := p
    by_cases hy : y = x <;> simp_all [Subst.lookup, hy]

theorem lookup_filter_key (l : Subst) (q : Id × Ty → Bool) (x : Id)
    (hq : ∀ t, q (x, t) = true) :
    Subst.lookup (l.filter q) x = Subst.lookup l x := by
  induction l with
  | nil => rfl
  | cons p rest ih =>
    obtain ⟨y, t⟩ := p
    by_cases hy : y = x
    · subst hy
      simp [List.filter, hq t, Subst.lookup]
    · cases hqy : q (y, t) <;> simp [List.filter, hqy, Subst.lookup, hy, ih]

theorem lookup_compose_some (outer inner : Subst) (x : Id) (u : Ty)
    (h : Subst.lookup inner x = some u) :
    Subst.lookup (Subst.compose outer inner) x = some (Ty.apply outer u) := by
  unfold Subst.compose
  apply lookup_append_some
  rw [lookup_map_apply, h]
  rfl

theorem lookup_compose_none (outer inner : Subst) (x : Id)
    (h : Subst.lookup inner x = none) :
    Subst.lookup (Subst.compose outer inner) x = Subst.lookup outer x := by
  unfold Subst.compose
  rw [lookup_append_none]
  · apply lookup_filter_key
    intro t
    simp [h]
  · rw [lookup_map_apply, h]
    rfl

/-- Claim C1: for every pair of substitutions and every type, applying the
composition `compose s2 s1` yields the same type as first applying `s1`
and then applying `s2` to the result. -/
theorem subst_compose_apply (s2 s1 : Subst) (t : Ty) :
    Ty.apply (Subst.compose s2 s1) t = Ty.apply s2 (Ty.apply s1 t) := by
  induction t with
  | var x k =>
    cases h : Subst.lookup s1 x with
    | none =>
      simp [Ty.apply, lookup_compose_none s2 s1 x h, h]
    | some u =>
      simp [Ty.apply, lookup_compose_some s2 s1 x u h, h]
  | con x k => rfl
  | app l r ihl ihr => simp [Ty.apply, ihl, ihr]
  | gen i => rfl

theorem unify_var_left (fuel : Nat) (ks : List Kind) (a : Id) (ka : Kind)
    (t : Ty) (hnv : ∀ b kb, t ≠ Ty.var b kb) :
    unify fuel ks (Ty.var a ka) t = varBind ks a ka t := by
  cases t with
  | var b kb => exact absurd rfl (hnv b kb)
  | con x k => cases fuel <;> rfl
  | app l r => cases fuel <;> rfl
  | gen i => cases fuel <;> rfl

theorem unify_var_right (fuel : Nat) (ks : List Kind) (a : Id) (ka : Kind)
    (t : Ty) (hnv : ∀ b kb, t ≠ Ty.var b kb) :
    unify fuel ks t (Ty.var a ka) = varBind ks a ka t := by
  cases t with
  | var b kb => exact absurd rfl (hnv b kb)
  | con x k => cases fuel <;> rfl
  | app l r => cases fuel <;> rfl
  | gen i => cases fuel <;> rfl

/-- Claim C2, counterexample to the statement as frozen.  First, with
`t = Var(a)` itself the variable does occur in `t`'s free variables, so
the claim demands an occurs-check failure, but unification of two equal
variables answers the empty substitution (the spec's own first case).
Second, for the symmetric call on a distinct variable `unify(Var(b),
Var(a))`, the claim (read with `t = Var(b)`) demands the singleton
mapping `a` to `t`, but the algorithm binds the left-hand variable `b`
instead. -/
theorem unify_var_cases_counterexample :
    (unify 1 [] (Ty.var 0 Kind.star) (Ty.var 0 Kind.star) = Except.ok [] ∧
      (Ty.tv (Ty.var 0 Kind.star)).any (fun v => v.1 == 0) = true) ∧
    (unify 1 [] (Ty.var 1 Kind.star) (Ty.var 0 Kind.star) =
        Except.ok [(1, Ty.var 0 Kind.star)] ∧
      ([(1, Ty.var 0 Kind.star)] : Subst) ≠ [(0, Ty.var 1 Kind.star)]) :=
  ⟨⟨rfl, by decide⟩, ⟨rfl, by decide⟩⟩

/-- Claim C2 (amended): for every type variable `Var(a)` and every type
`t` that is not itself a type variable, `unify(Var(a), t)` and the
symmetric call fail with the occurs-check error whenever `a` occurs in
`t`'s free variables; otherwise fail with the kind-mismatch error
whenever `a`'s kind differs from `t`'s kind; otherwise succeed returning
the singleton substitution mapping `a` to `t`. -/
theorem unify_var_cases (fuel : Nat) (ks : List Kind) (a : Id) (ka : Kind)
    (t : Ty) (hnv : ∀ b kb, t ≠ Ty.var b kb) :
    ((Ty.tv t).any (fun v => v.1 == a) = true →
        unify fuel ks (Ty.var a ka) t = Except.error UnifyErr.occursCheckError ∧
        unify fuel ks t (Ty.var a ka) = Except.error UnifyErr.occursCheckError) ∧
    ((Ty.tv t).any (fun v => v.1 == a) = false →
        (∀ kt, Ty.kind ks t = some kt → Kind.is_equal ka kt = true →
            unify fuel ks (Ty.var a ka) t = Except.ok [(a, t)] ∧
            unify fuel ks t (Ty.var a ka) = Except.ok [(a, t)]) ∧
        (∀ kt, Ty.kind ks t = some kt → Kind.is_equal ka kt = false →
            unify fuel ks (Ty.var a ka) t =
              Except.error UnifyErr.kindMismatchError ∧
            unify fuel ks t (Ty.var a ka) =
              Except.error UnifyErr.kindMismatchError)) := by
  rw [unify_var_left fuel ks a ka t hnv, unify_var_right fuel ks a ka t hnv]
  refine ⟨fun h => ?_, fun h => ⟨fun kt hkt hke => ?_, fun kt hkt hke => ?_⟩⟩
  · simp [varBind, h]
  · simp [varBind, h, hkt, hke]
  · simp [varBind, h, hkt, hke]

/-- Witness for C2 at the spec's own example: unifying `Var(a, Star)`
with `App(Var(a, Star), Con("X", Star))` fails with the occurs-check
error. -/
theorem unify_var_cases_witness :
    unify 1 [] (Ty.var 0 Kind.star)
        (Ty.app (Ty.var 0 Kind.star) (Ty.con 1 Kind.star)) =
      Except.error UnifyErr.occursCheckError :=
  ((unify_var_cases 1 [] 0 Kind.star
      (Ty.app (Ty.var 0 Kind.star) (Ty.con 1 Kind.star))
      (fun b kb h => Ty.noConfusion h)).1 (by decide)).1

/-- Claim C3: for every `Gen` placeholder, `Type::kind()` returns the
kind recorded at the placeholder's index in the kind list of the owning
scheme. -/
theorem gen_kind_from_scheme (sc : Scheme) (i : Nat) (h : i < sc.kinds.length) :
    Ty.kind sc.kinds (Ty.gen (Int.ofNat i)) = some (sc.kinds.get ⟨i, h⟩) := by
  simp [Ty.kind, List.getElem?_eq_getElem h]

/-- Witness for C3: a two-entry kind list and index 1. -/
theorem gen_kind_from_scheme_witness :
    Ty.kind [Kind.star, Kind.arr Kind.star Kind.star] (Ty.gen (Int.ofNat 1)) =
      some (Kind.arr Kind.star Kind.star) :=
  gen_kind_from_scheme
    ⟨[Kind.star, Kind.arr Kind.star Kind.star], Ty.gen 0⟩ 1 (by decide)

theorem kind_is_equal_refl (k : Kind) : Kind.is_equal k k = true := by
  induction k with
  | star => rfl
  | arr l r ihl ihr => simp [Kind.is_equal, ihl, ihr]

theorem kind_is_equal_symm (a b : Kind) :
    Kind.is_equal a b = Kind.is_equal b a := by
  induction a generalizing b with
  | star => cases b <;> rfl
  | arr l r ihl ihr =>
    cases b with
    | star => rfl
    | arr c d => simp [Kind.is_equal, ihl, ihr]

/-- Claim C4: kind equality is reflexive, symmetric and structural: any
two Star kinds are equal; two Arrow kinds are equal exactly when both
their left and right components are recursively equal; a Star kind and an
Arrow kind are never equal (in either order). -/
theorem kind_is_equal_props :
    (∀ k : Kind, Kind.is_equal k k = true) ∧
    (∀ a b : Kind, Kind.is_equal a b = Kind.is_equal b a) ∧
    (Kind.is_equal Kind.star Kind.star = true) ∧
    (∀ l1 r1 l2 r2 : Kind,
        Kind.is_equal (Kind.arr l1 r1) (Kind.arr l2 r2) =
          (Kind.is_equal l1 l2 && Kind.is_equal r1 r2)) ∧
    (∀ l r : Kind,
        Kind.is_equal Kind.star (Kind.arr l r) = false ∧
        Kind.is_equal (Kind.arr l r) Kind.star = false) :=
  ⟨kind_is_equal_refl, kind_is_equal_symm, rfl,
    fun _ _ _ _ => rfl, fun _ _ => ⟨rfl, rfl⟩⟩

/-- Claim C5: `Type::kind()` returns the stored kind when the term is a
`Var` or a `Con`; when the term is `App(lhs, rhs)` with `lhs.kind()` an
Arrow, it returns the Arrow's result-kind (right-hand) component; an
`App` whose left kind is not an Arrow (or is itself undefined) is an
internal invariant violation, modelled as the non-recoverable `none`,
never as one of the recoverable unification errors. -/
theorem ty_kind_dispatch (ks : List Kind) :
    (∀ x k, Ty.kind ks (Ty.var x k) = some k) ∧
    (∀ x k, Ty.kind ks (Ty.con x k) = some k) ∧
    (∀ l r kl kr, Ty.kind ks l = some (Kind.arr kl kr) →
        Ty.kind ks (Ty.app l r) = some kr) ∧
    (∀ l r, Ty.kind ks l = some Kind.star → Ty.kind ks (Ty.app l r) = none) ∧
    (∀ l r, Ty.kind ks l = none → Ty.kind ks (Ty.app l r) = none) := by
  refine ⟨fun x k => rfl, fun x k => rfl,
    fun l r kl kr h => ?_, fun l r h => ?_, fun l r h => ?_⟩
  all_goals simp [Ty.kind, h]

/-- Witness for C5: the kind of a well-kinded application evaluates to
the result-kind component of the head's arrow kind. -/
theorem ty_kind_dispatch_witness :
    Ty.kind []
        (Ty.app (Ty.con 0 (Kind.arr Kind.star Kind.star)) (Ty.con 1 Kind.star)) =
      some Kind.star :=
  (ty_kind_dispatch []).2.2.1 (Ty.con 0 (Kind.arr Kind.star Kind.star))
    (Ty.con 1 Kind.star) Kind.star Kind.star rfl

/-- Claim C6: the textual renderings are total over the variants:
`Kind::to_string` dispatches Star and Arrow to their per-variant
renderings; the four `is` checks of the `FALLTHROUGH_TYPE` macro cover
every `Type` variant, so no variant falls off the dispatch unprinted; and
`Type::to_string` dispatches every variant to its per-variant
rendering. -/
theorem to_string_total :
    (Kind.to_string Kind.star = KStar.to_string) ∧
    (∀ l r, Kind.to_string (Kind.arr l r) = KArr.to_string l r) ∧
    (∀ t : Ty,
        (Ty.is_tyvar t || Ty.is_tycon t || Ty.is_tyapp t || Ty.is_tygen t) = true) ∧
    (∀ x k, Ty.to_string (Ty.var x k) = TyVar.to_string x k) ∧
    (∀ x k, Ty.to_string (Ty.con x k) = TyCon.to_string x k) ∧
    (∀ l r, Ty.to_string (Ty.app l r) = TyApp.to_string l r) ∧
    (∀ i, Ty.to_string (Ty.gen i) = TyGen.to_string i) :=
  ⟨rfl, fun _ _ => rfl, fun t => by cases t <;> rfl,
    fun _ _ => rfl, fun _ _ => rfl, fun _ _ => rfl, fun _ => rfl⟩

end mangekyou

namespace Parser

/-- Claim C7: `Parser::parse_assignment` returns a null statement pointer
on every input — including a well-formed assignment — whatever the
expression sub-parser does; no statement node is ever produced. -/
theorem parse_assignment_none (pe : Parser → Option AST.Expr × Parser)
    (p : Parser) : (parse_assignment pe p).1 = none := by
  unfold parse_assignment
  split
  · rfl
  · split
    · rfl
    · split
      · rfl
      · split <;> rfl

/-- Claim C8: the binary-operator precedence table is configuration state
of one parser instance: the constructor initialises it to the literal
table; `get_token_prec` depends only on the instance it is handed (equal
tables give equal precedences and equal updated tables); and it leaves
every other member of its own instance untouched.  State being an
explicit per-instance value in this embedding, constructing or using one
parser cannot change any other parser's table. -/
theorem binop_prec_instance_scoped :
    (∀ src, (mkParser src).binop_prec = [(60, 10), (43, 20), (45, 20), (42, 40)]) ∧
    (∀ p q tok, p.binop_prec = q.binop_prec →
        (get_token_prec p tok).1 = (get_token_prec q tok).1 ∧
        (get_token_prec p tok).2.binop_prec =
          (get_token_prec q tok).2.binop_prec) ∧
    (∀ p tok,
        (get_token_prec p tok).2.buffer = p.buffer ∧
        (get_token_prec p tok).2.src = p.src ∧
        (get_token_prec p tok).2.cur_token = p.cur_token) := by
  refine ⟨fun src => rfl, fun p q tok h => ?_, fun p tok => ?_⟩
  · unfold get_token_prec
    rw [h]
    split
    · exact ⟨rfl, h⟩
    · dsimp only
      split <;> exact ⟨rfl, rfl⟩
  · unfold get_token_prec
    split
    · exact ⟨rfl, rfl, rfl⟩
    · dsimp only
      split <;> exact ⟨rfl, rfl, rfl⟩

/-- Witness for C8: two independently constructed parser instances, over
different streams, report the same precedence 20 for '+'. -/
theorem binop_prec_instance_scoped_witness :
    (get_token_prec (mkParser [97]) 43).1 =
      (get_token_prec (mkParser []) 43).1 :=
  (binop_prec_instance_scoped.2.1 (mkParser [97]) (mkParser []) 43 rfl).1

/-- Claim C9: whenever `is_space` answers false, the stream's read
position is unchanged — either nothing was consumed, or the 0xC2 probe
byte was consumed and pushed back; only a true answer on the
non-breaking-space sequence leaves a byte (exactly the probe) consumed. -/
theorem is_space_cons (c : Nat) (rest : Stream) :
    is_space (c :: rest) =
      if isspace_byte (c : Int) then (true, c :: rest)
      else if (c : Int) ≠ 194 then (false, c :: rest)
      else if Stream.peek rest = 160 then (true, rest)
      else (false, 194 :: rest) := rfl

theorem is_space_frame (s : Stream) :
    ((is_space s).1 = false → (is_space s).2 = s) ∧
    ((is_space s).1 = true →
        (is_space s).2 = s ∨
        (Stream.peek s = 194 ∧ Stream.peek (Stream.get s).2 = 160 ∧
          (is_space s).2 = (Stream.get s).2)) := by
  cases s with
  | nil =>
    refine ⟨fun _ => rfl, fun h => ?_⟩
    simp [is_space, Stream.peek, isspace_byte] at h
  | cons c rest =>
    by_cases h1 : isspace_byte (c : Int)
    · have hres : is_space (c :: rest) = (true, c :: rest) := by
        simp [is_space_cons, h1]
      rw [hres]
      refine ⟨fun hf => ?_, fun _ => Or.inl rfl⟩
      simp at hf
    · by_cases h2 : ((c : Int) = 194)
      · by_cases h3 : Stream.peek rest = 160
        · have hres : is_space (c :: rest) = (true, rest) := by
            simp [is_space_cons, isspace_byte, h2, h3]
          rw [hres]
          refine ⟨fun hf => ?_, fun _ => Or.inr ⟨?_, ?_, ?_⟩⟩
          · simp at hf
          · simp [Stream.peek, h2]
          · simpa [Stream.get] using h3
          · simp [Stream.get]
        · have hc : c = 194 := by exact_mod_cast h2
          have hres : is_space (c :: rest) = (false, 194 :: rest) := by
            simp [is_space_cons, isspace_byte, h2, h3]
          rw [hres]
          subst hc
          refine ⟨fun _ => rfl, fun ht => ?_⟩
          simp at ht
      · have hres : is_space (c :: rest) = (false, c :: rest) := by
          simp [is_space_cons, h1, h2]
        rw [hres]
        refine ⟨fun _ => rfl, fun ht => ?_⟩
        simp at ht

/-- Witness for C9: a stream opening with the probe byte 0xC2 not
followed by 0xA0 is answered false with the stream restored intact. -/
theorem is_space_frame_witness :
    (is_space ([194, 65] : Stream)).2 = ([194, 65] : Stream) :=
  (is_space_frame [194, 65]).1 (by decide)

theorem skip_spaces_not_space (s : Stream) (h : (is_space s).1 = false) :
    skip_spaces s = s := by
  unfold skip_spaces
  cases hl : s.length with
  | zero => rfl
  | succ n => simp [skip_spaces_fuel, h]

theorem take_digitdot_spec (s : Stream) :
    take_digitdot s = (s.takeWhile digitdot_nat, s.dropWhile digitdot_nat) := by
  induction s with
  | nil => rfl
  | cons c rest ih =>
    by_cases h : digitdot_byte (c : Int) <;>
      simp [take_digitdot, digitdot_nat, List.takeWhile_cons,
        List.dropWhile_cons, h, ih]

/-- Claim C10: with an empty pushback buffer and input beginning with a
digit or a dot, `Parser::get_token` consumes the maximal following run of
digits and dots and returns it as a single `tok_number` token with no
lexical error — so `1.2.3` or a lone `.` each yield exactly one number
token. -/
theorem get_token_number_run (c : Nat) (rest : Stream)
    (hc : digitdot_byte (c : Int) = true) :
    get_token { buffer := [], src := c :: rest } =
      ({ type := tok_number,
         lexeme := lexemeOf (c :: rest.takeWhile digitdot_nat) },
       { buffer := [], src := rest.dropWhile digitdot_nat }) := by
  have hd : ((48 : Int) ≤ (c : Int) ∧ (c : Int) ≤ 57) ∨ (c : Int) = 46 := by
    simpa [digitdot_byte, isdigit_byte] using hc
  have hns : isspace_byte (c : Int) = false := by
    simp only [isspace_byte, Bool.or_eq_false_iff, decide_eq_false_iff_not]
    omega
  have hn194 : ¬ ((c : Int) = 194) := by omega
  have hna : isalpha_byte (c : Int) = false := by
    simp only [isalpha_byte, Bool.or_eq_false_iff, Bool.and_eq_false_iff,
      decide_eq_false_iff_not]
    omega
  have hisf : (is_space (c :: rest)).1 = false := by
    simp [is_space, Stream.peek, hns, hn194]
  have hskip : skip_spaces (c :: rest) = c :: rest :=
    skip_spaces_not_space _ hisf
  simp [get_token, get_token_src, get_token_src_fuel, hskip, Stream.peek,
    Stream.get, hna, hc, take_digitdot_spec, lexemeOf]

/-- Witness for C10: the input `1.2.3` lexes to one number token whose
lexeme is the whole string, leaving the stream exhausted. -/
theorem get_token_number_run_witness :
    get_token { buffer := [], src := [49, 46, 50, 46, 51] } =
      ({ type := tok_number, lexeme := "1.2.3" }, { buffer := [], src := [] }) :=
  (get_token_number_run 49 [46, 50, 46, 51] (by decide)).trans (by decide)

end Parser
